import Mathlib

/-!
Verification model of the swap.garden cross-chain HTLC swap system.

The development shallowly embeds:

* the off-chain resolver (`packages/resolver/src/htlc-resolver.ts`, class
  `HTLCResolver`, second definition in the file): order creation, swap
  execution, withdrawal and cancellation over an in-memory order registry;
* the on-chain contracts (`packages/contracts/evm/contracts/HTLCFactory.sol`,
  `HTLCSource.sol`, `HTLCDestination.sol`): factory timelock/amount guards
  and the escrow state machine.

Modelling conventions:

* Byte strings and 32-byte digests are modelled by the free term algebra
  `Word`; `keccak256` is the constructor `Word.keccak`.  This makes the hash
  deterministic and collision-free, matching the collision-resistance
  assumption the system relies on; it is the standard symbolic model of a
  cryptographic hash.
* Randomness (`randomBytes(32)`) and the blockchain environment (providers,
  transaction outcomes, deployed addresses, clocks) are passed as explicit
  arguments, so every nondeterministic outcome of the original code is a
  parameter of the corresponding Lean function.
* Each effectful operation returns the updated state together with an
  `Except` value; the TypeScript methods mutate their registry only at the
  program points where the embedded functions produce an updated state.
-/

set_option maxRecDepth 100000

namespace SwapGarden

/-- Symbolic byte strings and 32-byte words.  `bytes s` is a literal hex
string (secrets, addresses rendered as data), `keccak w` is the keccak-256
digest of `w`, and `encodeOrder` is the ABI encoding
`abi.encode(address, uint256, uint256, address, address, uint256, uint256,
bytes32, uint256)` built by `createSwapOrder`. -/
inductive Word where
  | bytes : String → Word
  | keccak : Word → Word
  | encodeOrder : String → Nat → Nat → String → String → Int → Int → Word → Nat → Word
  deriving DecidableEq, Repr

/-- Model of `ethers.keccak256`. -/
def keccak256 (w : Word) : Word := Word.keccak w

/-- Hex digit test used by the address format check. -/
def isHexDigit (c : Char) : Bool :=
  c.isDigit || (decide (c.toLower ≤ 'f') && decide ('a' ≤ c.toLower))

/-- Well-formedness of a 20-byte address string: `0x` followed by exactly 40
hex digits (checked on the character list of the string). -/
def isAddressFormat (s : String) : Bool :=
  match s.data with
  | '0' :: 'x' :: rest => rest.length == 40 && rest.all isHexDigit
  | _ => false

/-- Lower-casing of an address string, character by character. -/
def lowerAddr (s : String) : String :=
  String.mk (s.data.map Char.toLower)

/-- Model of `ethers.getAddress`: validates the address string and returns
its canonical representative, `none` when validation fails (the library
throws).  `getAddress` is case-insensitive in the hex digits and its output
depends only on them, so the canonical form is modelled by lower-casing; the
EIP-55 rejection of wrongly mixed-case inputs is abstracted away (the
development only instantiates addresses in a single case). -/
def getAddress (s : String) : Option String :=
  if isAddressFormat s then some (lowerAddr s) else none

/-- Range check performed by the ABI coder when a value is encoded as
`uint256` (`ethers` throws on negative or oversized values). -/
def fitsUint256 (a : Int) : Bool :=
  0 ≤ a && a < (2 : Int) ^ 256

/-- Order status, the string union
`'pending' | 'executed' | 'completed' | 'cancelled'`. -/
inductive OrderStatus where
  | pending
  | executed
  | completed
  | cancelled
  deriving DecidableEq, Repr

/-- The `SwapOrder` record of the resolver.  Amount strings are modelled as
integers (the code keeps them as decimal strings and validates them when ABI
encoding). -/
structure SwapOrder where
  orderHash : Word
  maker : String
  srcChainId : Nat
  dstChainId : Nat
  srcToken : String
  dstToken : String
  srcAmount : Int
  dstAmount : Int
  timelock : Nat
  secret : String
  hashLock : Word
  status : OrderStatus
  createdAt : Nat
  srcHTLCAddress : Option String := none
  dstHTLCAddress : Option String := none
  srcTxHash : Option String := none
  dstTxHash : Option String := none
  deriving DecidableEq, Repr

/-- Lookup in an insertion-ordered association list, the model of
`Map.get`. -/
def mapFind {α : Type} (m : List (Word × α)) (k : Word) : Option α :=
  match m with
  | [] => none
  | (k2, v) :: rest => if k2 = k then some v else mapFind rest k

/-- Update in an insertion-ordered association list, the model of `Map.set`:
replaces the entry when the key is present, appends otherwise. -/
def mapSet {α : Type} (m : List (Word × α)) (k : Word) (v : α) : List (Word × α) :=
  match m with
  | [] => [(k, v)]
  | (k2, v2) :: rest => if k2 = k then (k2, v) :: rest else (k2, v2) :: mapSet rest k v

/-- Errors thrown by the resolver methods; constructors carry the thrown
message family of `htlc-resolver.ts`. -/
inductive ResolverErr where
  /-- `Failed to create swap order: ...` (address or ABI validation threw). -/
  | createFailed
  /-- `Order not found`. -/
  | orderNotFound
  /-- `Order status is S, cannot execute`. -/
  | invalidStatus (current : OrderStatus)
  /-- `Invalid secret`. -/
  | invalidSecret
  /-- `No provider/wallet configured for chain C`. -/
  | noProvider (chainId : Nat)
  /-- `No factory address configured for chain C`. -/
  | noFactory (chainId : Nat)
  /-- `No MAKER_PRIVATE_KEY or RESOLVER_PRIVATE_KEY found` (either role). -/
  | noPrivateKey
  /-- `No HTLC address found for chain C`. -/
  | noHTLCAddress (chainId : Nat)
  /-- An on-chain transaction (approval, deployment, withdraw or cancel)
  rejected; the resolver rethrows the underlying cause. -/
  | chainError
  /-- `Cannot cancel before timelock expires`. -/
  | timelockNotExpired
  deriving DecidableEq, Repr

/-- State of an `HTLCResolver` instance: the `orders` map plus the set of
chain ids for which `initializeProviders` installed a provider and wallet. -/
structure ResolverState where
  orders : List (Word × SwapOrder)
  providerChains : List Nat
  deriving DecidableEq, Repr

/-- Parameters of `createSwapOrder`. -/
structure CreateParams where
  maker : String
  srcChainId : Nat
  dstChainId : Nat
  srcToken : String
  dstToken : String
  srcAmount : Int
  dstAmount : Int
  timelock : Nat
  deriving DecidableEq, Repr

/-- `HTLCResolver.createSwapOrder`.  `now` is `Math.floor(Date.now()/1000)`
and `secretBytes` the hex rendering of `randomBytes(32)`; the method builds
`secret = '0x' + secretBytes`, `hashLock = keccak256(secret)`, checksums the
three addresses, ABI encodes the nine order fields, hashes the encoding into
`orderHash` and stores the order under that key.  Any validation throw is
caught and rethrown as a generic creation failure, leaving the registry
untouched. -/
def createSwapOrder (st : ResolverState) (now : Nat) (secretBytes : String)
    (p : CreateParams) : ResolverState × Except ResolverErr SwapOrder :=
  let secret := "0x" ++ secretBytes
  let hashLock := keccak256 (Word.bytes secret)
  match getAddress p.maker, getAddress p.srcToken, getAddress p.dstToken with
  | some maker, some srcToken, some dstToken =>
    if fitsUint256 p.srcAmount && fitsUint256 p.dstAmount then
      let orderHash := keccak256 (Word.encodeOrder maker p.srcChainId p.dstChainId
        srcToken dstToken p.srcAmount p.dstAmount hashLock p.timelock)
      let order : SwapOrder :=
        { orderHash := orderHash
          maker := p.maker
          srcChainId := p.srcChainId
          dstChainId := p.dstChainId
          srcToken := p.srcToken
          dstToken := p.dstToken
          srcAmount := p.srcAmount
          dstAmount := p.dstAmount
          timelock := p.timelock
          secret := secret
          hashLock := hashLock
          status := OrderStatus.pending
          createdAt := now }
      ({ st with orders := mapSet st.orders orderHash order }, Except.ok order)
    else (st, Except.error ResolverErr.createFailed)
  | _, _, _ => (st, Except.error ResolverErr.createFailed)

/-- Environment of a single `executeSwap` run: configuration looked up from
`this.chains`/`process.env` and the outcome of each awaited on-chain call.
`srcApproveOk` and `dstApproveOk` are the approval transactions,
`srcDeployTx`/`dstDeployTx` are the receipt hashes of the two factory
deployments (`none` when the transaction failed), and
`srcHTLCAddr`/`dstHTLCAddr` are the addresses returned by
`getSourceHTLC`/`getDestinationHTLC` afterwards. -/
structure ExecEnv where
  srcFactoryConfigured : Bool
  makerKeyPresent : Bool
  srcApproveOk : Bool
  srcDeployTx : Option String
  srcHTLCAddr : String
  dstFactoryConfigured : Bool
  takerKeyPresent : Bool
  dstApproveOk : Bool
  dstDeployTx : Option String
  dstHTLCAddr : String
  deriving DecidableEq, Repr

/-- Successful result of `executeSwap`. -/
structure ExecResult where
  srcTxHash : String
  dstTxHash : String
  deriving DecidableEq, Repr

/-- The updated order record written by a fully successful `executeSwap`
(status `executed`, both receipt hashes and both HTLC addresses). -/
def executedOrder (order : SwapOrder) (srcTx dstTx srcAddr dstAddr : String) :
    SwapOrder :=
  { order with
    status := OrderStatus.executed
    srcTxHash := some srcTx
    dstTxHash := some dstTx
    srcHTLCAddress := some srcAddr
    dstHTLCAddress := some dstAddr }

/-- Destination-leg half of `executeSwap` (step 2/2a of the method body):
destination provider and factory checks, taker key, taker approval,
destination deployment; only when every one of them has succeeded is the
order record updated and marked `executed`. -/
def execDstLeg (st : ResolverState) (orderHash : Word) (order : SwapOrder)
    (env : ExecEnv) (srcTxHash : String) :
    ResolverState × Except ResolverErr ExecResult :=
  if order.dstChainId ∉ st.providerChains then
    (st, Except.error (ResolverErr.noProvider order.dstChainId))
  else if ¬ env.dstFactoryConfigured then
    (st, Except.error (ResolverErr.noFactory order.dstChainId))
  else if ¬ env.takerKeyPresent then
    (st, Except.error ResolverErr.noPrivateKey)
  else if ¬ env.dstApproveOk then
    (st, Except.error ResolverErr.chainError)
  else match env.dstDeployTx with
    | none => (st, Except.error ResolverErr.chainError)
    | some dstTxHash =>
      ({ st with orders := mapSet st.orders orderHash (executedOrder order srcTxHash dstTxHash env.srcHTLCAddr env.dstHTLCAddr) },
        Except.ok { srcTxHash := srcTxHash, dstTxHash := dstTxHash })

/-- Source-leg half of `executeSwap` (step 1/1a of the method body): source
provider and factory checks, maker key, maker approval, source deployment;
on success control passes to the destination leg. -/
def execSrcLeg (st : ResolverState) (orderHash : Word) (order : SwapOrder)
    (env : ExecEnv) : ResolverState × Except ResolverErr ExecResult :=
  if order.srcChainId ∉ st.providerChains then
    (st, Except.error (ResolverErr.noProvider order.srcChainId))
  else if ¬ env.srcFactoryConfigured then
    (st, Except.error (ResolverErr.noFactory order.srcChainId))
  else if ¬ env.makerKeyPresent then
    (st, Except.error ResolverErr.noPrivateKey)
  else if ¬ env.srcApproveOk then
    (st, Except.error ResolverErr.chainError)
  else match env.srcDeployTx with
    | none => (st, Except.error ResolverErr.chainError)
    | some srcTxHash => execDstLeg st orderHash order env srcTxHash

/-- `HTLCResolver.executeSwap`.  Looks the order up, rejects any status other
than `pending`, then runs the two-leg deployment pipeline, source leg
strictly before destination leg.  Any failure rethrows before the order is
touched. -/
def executeSwap (st : ResolverState) (orderHash : Word) (env : ExecEnv) :
    ResolverState × Except ResolverErr ExecResult :=
  match mapFind st.orders orderHash with
  | none => (st, Except.error ResolverErr.orderNotFound)
  | some order =>
    if order.status ≠ OrderStatus.pending then
      (st, Except.error (ResolverErr.invalidStatus order.status))
    else execSrcLeg st orderHash order env

/-- Successful result of `withdraw` or `cancel`: the escrow address the
on-chain call was dispatched against and the confirmed transaction hash. -/
structure CallResult where
  htlcAddress : String
  txHash : String
  deriving DecidableEq, Repr

/-- `HTLCResolver.withdraw`.  Looks the order up, rejects a secret whose
keccak-256 digest differs from the stored hash lock, requires a provider for
the requested chain, picks the escrow address by `chainId === order.srcChainId`
(source leg on match, destination leg otherwise), and dispatches the on-chain
`withdraw(secret)` call; `tx` is `none` when that transaction failed.  The
order record is never modified. -/
def withdraw (st : ResolverState) (orderHash : Word) (secret : String)
    (chainId : Nat) (tx : Option String) :
    ResolverState × Except ResolverErr CallResult :=
  match mapFind st.orders orderHash with
  | none => (st, Except.error ResolverErr.orderNotFound)
  | some order =>
    if keccak256 (Word.bytes secret) ≠ order.hashLock then
      (st, Except.error ResolverErr.invalidSecret)
    else if chainId ∉ st.providerChains then
      (st, Except.error (ResolverErr.noProvider chainId))
    else match (if chainId = order.srcChainId then order.srcHTLCAddress
                else order.dstHTLCAddress) with
      | none => (st, Except.error (ResolverErr.noHTLCAddress chainId))
      | some htlcAddress =>
        match tx with
        | none => (st, Except.error ResolverErr.chainError)
        | some txHash =>
          (st, Except.ok { htlcAddress := htlcAddress, txHash := txHash })

/-- `HTLCResolver.cancel`.  Looks the order up, rejects when the current time
is still before the order timelock, requires a provider for the requested
chain, picks the escrow address by `chainId === order.srcChainId`, dispatches
the on-chain `cancel()` call, and on confirmation sets the order status to
`cancelled`. -/
def cancel (st : ResolverState) (orderHash : Word) (chainId : Nat) (now : Nat)
    (tx : Option String) : ResolverState × Except ResolverErr CallResult :=
  match mapFind st.orders orderHash with
  | none => (st, Except.error ResolverErr.orderNotFound)
  | some order =>
    if now < order.timelock then
      (st, Except.error ResolverErr.timelockNotExpired)
    else if chainId ∉ st.providerChains then
      (st, Except.error (ResolverErr.noProvider chainId))
    else match (if chainId = order.srcChainId then order.srcHTLCAddress
                else order.dstHTLCAddress) with
      | none => (st, Except.error (ResolverErr.noHTLCAddress chainId))
      | some htlcAddress =>
        match tx with
        | none => (st, Except.error ResolverErr.chainError)
        | some txHash =>
          let order2 := { order with status := OrderStatus.cancelled }
          ({ st with orders := mapSet st.orders orderHash order2 },
            Except.ok { htlcAddress := htlcAddress, txHash := txHash })

/-! ## On-chain model: HTLCFactory -/

/-- `HTLCFactory.MIN_TIMELOCK = 1 hours`. -/
def MIN_TIMELOCK : Nat := 3600

/-- `HTLCFactory.MAX_TIMELOCK = 7 days`. -/
def MAX_TIMELOCK : Nat := 7 * 24 * 3600

/-- Reverts of the factory deployment functions. -/
inductive FactoryErr where
  /-- `HTLC already exists`. -/
  | alreadyExists
  /-- `Timelock too short`. -/
  | timelockTooShort
  /-- `Timelock too long`. -/
  | timelockTooLong
  /-- `Amount must be greater than 0`. -/
  | zeroAmount
  /-- `safeTransferFrom` reverted (missing approval or balance). -/
  | transferFailed
  deriving DecidableEq, Repr

/-- Storage of one `HTLCFactory` instance: the `sourceHTLCs` and
`destinationHTLCs` mappings (absent key models `address(0)`). -/
structure FactoryState where
  sourceHTLCs : List (Word × String)
  destinationHTLCs : List (Word × String)
  deriving DecidableEq, Repr

/-- `HTLCFactory.deploySourceHTLC`.  `now` is `block.timestamp`, `transferOk`
the outcome of the maker-funded `safeTransferFrom`, and `newAddr` the address
of the contract instance created by `new HTLCSource(...)`. -/
def deploySourceHTLC (st : FactoryState) (now : Nat) (orderHash : Word)
    (makingAmount : Nat) (timelock : Nat) (transferOk : Bool) (newAddr : String) :
    FactoryState × Except FactoryErr String :=
  if (mapFind st.sourceHTLCs orderHash).isSome then
    (st, Except.error FactoryErr.alreadyExists)
  else if ¬ (now + MIN_TIMELOCK ≤ timelock) then
    (st, Except.error FactoryErr.timelockTooShort)
  else if ¬ (timelock ≤ now + MAX_TIMELOCK) then
    (st, Except.error FactoryErr.timelockTooLong)
  else if ¬ (0 < makingAmount) then
    (st, Except.error FactoryErr.zeroAmount)
  else if ¬ transferOk then
    (st, Except.error FactoryErr.transferFailed)
  else
    ({ st with sourceHTLCs := mapSet st.sourceHTLCs orderHash newAddr },
      Except.ok newAddr)

/-- `HTLCFactory.deployDestinationHTLC`; same guard sequence as the source
variant, keyed on `destinationHTLCs` and on `takingAmount`. -/
def deployDestinationHTLC (st : FactoryState) (now : Nat) (orderHash : Word)
    (takingAmount : Nat) (timelock : Nat) (transferOk : Bool) (newAddr : String) :
    FactoryState × Except FactoryErr String :=
  if (mapFind st.destinationHTLCs orderHash).isSome then
    (st, Except.error FactoryErr.alreadyExists)
  else if ¬ (now + MIN_TIMELOCK ≤ timelock) then
    (st, Except.error FactoryErr.timelockTooShort)
  else if ¬ (timelock ≤ now + MAX_TIMELOCK) then
    (st, Except.error FactoryErr.timelockTooLong)
  else if ¬ (0 < takingAmount) then
    (st, Except.error FactoryErr.zeroAmount)
  else if ¬ transferOk then
    (st, Except.error FactoryErr.transferFailed)
  else
    ({ st with destinationHTLCs := mapSet st.destinationHTLCs orderHash newAddr },
      Except.ok newAddr)

/-! ## On-chain model: the HTLC escrow state machine

`HTLCSource` and `HTLCDestination` implement the same state machine (states
`PENDING`, `WITHDRAWN`, `CANCELLED`, modifiers `onlyBeforeTimelock`,
`onlyAfterTimelock`, `onlyPending`, preimage check); they differ only in
which stored asset/amount a successful call transfers and in who receives
the refund on cancel (`maker` on the source leg, `taker` on the destination
leg).  The model covers both via the `leg` tag. -/

/-- The escrow `State` enum. -/
inductive EscrowState where
  | PENDING
  | WITHDRAWN
  | CANCELLED
  deriving DecidableEq, Repr

/-- Which contract the escrow instance is. -/
inductive Leg where
  | source
  | destination
  deriving DecidableEq, Repr

/-- The `htlcData` storage of an `HTLCSource`/`HTLCDestination` instance.
`depositor` is `maker` for the source leg and `taker` for the destination
leg (the refund recipient of `cancel`). -/
structure Escrow where
  leg : Leg
  orderHash : Word
  depositor : String
  makerAsset : String
  makingAmount : Nat
  takerAsset : String
  takingAmount : Nat
  hashLock : Word
  timelock : Nat
  counterChainId : Nat
  state : EscrowState
  withdrawnBy : String
  preimage : String
  deriving DecidableEq, Repr

/-- Reverts of the escrow operations. -/
inductive EscrowErr where
  /-- `Timelock has passed` (withdraw after the deadline). -/
  | timelockPassed
  /-- `Timelock not yet passed` (cancel before the deadline). -/
  | timelockNotPassed
  /-- `Contract not in pending state`. -/
  | notPending
  /-- `Invalid preimage`. -/
  | invalidPreimage
  deriving DecidableEq, Repr

/-- A token transfer performed by a successful escrow operation. -/
structure Transfer where
  token : String
  amount : Nat
  recipient : String
  deriving DecidableEq, Repr

/-- The asset an escrow pays out: the source leg escrows and pays
`makerAsset`/`makingAmount`, the destination leg `takerAsset`/`takingAmount`. -/
def Escrow.payout (e : Escrow) (recipient : String) : Transfer :=
  match e.leg with
  | Leg.source => { token := e.makerAsset, amount := e.makingAmount, recipient := recipient }
  | Leg.destination => { token := e.takerAsset, amount := e.takingAmount, recipient := recipient }

/-- `HTLCSource.withdraw` / `HTLCDestination.withdraw`: modifier order is
`onlyBeforeTimelock` then `onlyPending`, then the preimage check; on success
the state becomes `WITHDRAWN`, the caller and preimage are recorded, and the
escrowed amount is transferred to the caller. -/
def Escrow.withdraw (e : Escrow) (caller : String) (now : Nat) (preimage : String) :
    Escrow × Except EscrowErr Transfer :=
  if ¬ (now < e.timelock) then
    (e, Except.error EscrowErr.timelockPassed)
  else if e.state ≠ EscrowState.PENDING then
    (e, Except.error EscrowErr.notPending)
  else if keccak256 (Word.bytes preimage) ≠ e.hashLock then
    (e, Except.error EscrowErr.invalidPreimage)
  else
    ({ e with state := EscrowState.WITHDRAWN, withdrawnBy := caller, preimage := preimage },
      Except.ok (e.payout caller))

/-- `HTLCSource.cancel` / `HTLCDestination.cancel`: modifier order is
`onlyAfterTimelock` then `onlyPending`; on success the state becomes
`CANCELLED` and the escrowed amount is refunded to the depositor. -/
def Escrow.cancel (e : Escrow) (now : Nat) :
    Escrow × Except EscrowErr Transfer :=
  if ¬ (e.timelock ≤ now) then
    (e, Except.error EscrowErr.timelockNotPassed)
  else if e.state ≠ EscrowState.PENDING then
    (e, Except.error EscrowErr.notPending)
  else
    ({ e with state := EscrowState.CANCELLED }, Except.ok (e.payout e.depositor))

/-- An external call to an escrow instance. -/
inductive EscrowCall where
  | w (caller : String) (now : Nat) (preimage : String)
  | c (caller : String) (now : Nat)
  deriving DecidableEq, Repr

/-- Effect of one call on the escrow storage (a reverted call leaves the
storage unchanged). -/
def escrowStep (e : Escrow) (call : EscrowCall) : Escrow :=
  match call with
  | EscrowCall.w caller now preimage => (e.withdraw caller now preimage).fst
  | EscrowCall.c _ now => (e.cancel now).fst

/-- Effect of a sequence of calls on the escrow storage. -/
def escrowRun (e : Escrow) (calls : List EscrowCall) : Escrow :=
  match calls with
  | [] => e
  | call :: rest => escrowRun (escrowStep e call) rest

/-! ## Resolver transition system -/

/-- One externally triggered operation on a resolver instance (the state
after a call, whether it succeeded or threw). -/
inductive ResolverStep : ResolverState → ResolverState → Prop where
  | create (st : ResolverState) (now : Nat) (sb : String) (p : CreateParams) :
      ResolverStep st (createSwapOrder st now sb p).fst
  | execute (st : ResolverState) (h : Word) (env : ExecEnv) :
      ResolverStep st (executeSwap st h env).fst
  | withdrawStep (st : ResolverState) (h : Word) (s : String) (cid : Nat)
      (tx : Option String) :
      ResolverStep st (withdraw st h s cid tx).fst
  | cancelStep (st : ResolverState) (h : Word) (cid : Nat) (now : Nat)
      (tx : Option String) :
      ResolverStep st (cancel st h cid now tx).fst

/-- A fresh `HTLCResolver`: empty order registry, providers as installed by
`initializeProviders` (dependent on the environment, hence arbitrary). -/
def initialState (chains : List Nat) : ResolverState :=
  { orders := [], providerChains := chains }

/-- Resolver states reachable from a fresh instance by any sequence of
operations. -/
def Reachable (st : ResolverState) : Prop :=
  ∃ chains, Relation.ReflTransGen ResolverStep (initialState chains) st

/-- Status of the order stored under `k`. -/
def statusAt (st : ResolverState) (k : Word) : Option OrderStatus :=
  (mapFind st.orders k).map SwapOrder.status

/-- The status changes the specification permits for a single operation:
no change, `pending → executed`, or `pending|executed → cancelled`. -/
def statusTransOK (a b : Option OrderStatus) : Prop :=
  b = a ∨ (a = some OrderStatus.pending ∧ b = some OrderStatus.executed)
    ∨ ((a = some OrderStatus.pending ∨ a = some OrderStatus.executed)
        ∧ b = some OrderStatus.cancelled)

/-- No stored order has status `completed` (nothing in the resolver ever
assigns that status). -/
def NoCompleted (st : ResolverState) : Prop :=
  ∀ k o, mapFind st.orders k = some o → o.status ≠ OrderStatus.completed

/-! ## Association-list lemmas -/

theorem mapFind_mapSet {α : Type} (m : List (Word × α)) (k k2 : Word) (v : α) :
    mapFind (mapSet m k v) k2 = if k = k2 then some v else mapFind m k2 := by
  induction m with
  | nil =>
    by_cases h : k = k2 <;> simp [mapSet, mapFind, h]
  | cons hd tl ih =>
    obtain ⟨kh, vh⟩ := hd
    by_cases h1 : kh = k
    · subst h1
      by_cases h2 : kh = k2 <;> simp [mapSet, mapFind, h2]
    · by_cases h2 : kh = k2
      · subst h2
        simp [mapSet, mapFind, h1]
        rw [if_neg (fun h => h1 h.symm)]
      · simp [mapSet, mapFind, h1, h2, ih]

theorem length_mapSet {α : Type} (m : List (Word × α)) (k : Word) (v : α) :
    (mapSet m k v).length =
      if (mapFind m k).isSome then m.length else m.length + 1 := by
  induction m with
  | nil => simp [mapSet, mapFind]
  | cons hd tl ih =>
    obtain ⟨kh, vh⟩ := hd
    by_cases h1 : kh = k <;> simp [mapSet, mapFind, h1, ih]
    split <;> rfl

/-! ## Inversion of a successful order creation -/

/-- The order produced by `createSwapOrder` from parameters `p`, generated
secret bytes `sb`, creation time `now`, with checksummed addresses
`m`, `s`, `d`. -/
def builtOrder (now : Nat) (sb : String) (p : CreateParams)
    (m s d : String) : SwapOrder :=
  { orderHash := keccak256 (Word.encodeOrder m p.srcChainId p.dstChainId s d
      p.srcAmount p.dstAmount (keccak256 (Word.bytes ("0x" ++ sb))) p.timelock)
    maker := p.maker
    srcChainId := p.srcChainId
    dstChainId := p.dstChainId
    srcToken := p.srcToken
    dstToken := p.dstToken
    srcAmount := p.srcAmount
    dstAmount := p.dstAmount
    timelock := p.timelock
    secret := "0x" ++ sb
    hashLock := keccak256 (Word.bytes ("0x" ++ sb))
    status := OrderStatus.pending
    createdAt := now }

theorem createSwapOrder_ok {st : ResolverState} {now : Nat} {sb : String}
    {p : CreateParams} {st2 : ResolverState} {o : SwapOrder}
    (h : createSwapOrder st now sb p = (st2, Except.ok o)) :
    ∃ m s d, getAddress p.maker = some m ∧ getAddress p.srcToken = some s ∧
      getAddress p.dstToken = some d ∧
      (fitsUint256 p.srcAmount && fitsUint256 p.dstAmount) = true ∧
      o = builtOrder now sb p m s d ∧
      st2 = { st with orders := mapSet st.orders o.orderHash o } := by
  unfold createSwapOrder at h
  cases hm : getAddress p.maker with
  | none => rw [hm] at h; simp at h
  | some m =>
    cases hs : getAddress p.srcToken with
    | none => rw [hm, hs] at h; simp at h
    | some s =>
      cases hd : getAddress p.dstToken with
      | none => rw [hm, hs, hd] at h; simp at h
      | some d =>
        rw [hm, hs, hd] at h
        dsimp only at h
        by_cases hfit : (fitsUint256 p.srcAmount && fitsUint256 p.dstAmount) = true
        · rw [if_pos hfit] at h
          rw [Prod.mk.injEq] at h
          obtain ⟨h1, h2⟩ := h
          injection h2 with h2
          subst h2
          exact ⟨m, s, d, rfl, rfl, rfl, hfit, rfl, h1.symm⟩
        · rw [if_neg hfit] at h
          simp at h

/-! ## Shape of each operation's effect on the registry -/

theorem withdraw_fst (st : ResolverState) (h : Word) (s : String) (cid : Nat)
    (tx : Option String) : (withdraw st h s cid tx).fst = st := by
  unfold withdraw
  cases mapFind st.orders h with
  | none => rfl
  | some order =>
    dsimp only
    split
    · rfl
    split
    · rfl
    split
    · rfl
    cases tx with
    | none => rfl
    | some txh => rfl

theorem create_cases (st : ResolverState) (now : Nat) (sb : String)
    (p : CreateParams) :
    (createSwapOrder st now sb p).fst = st ∨
    ∃ m s d, (createSwapOrder st now sb p).fst = { st with orders := mapSet st.orders (builtOrder now sb p m s d).orderHash (builtOrder now sb p m s d) } := by
  unfold createSwapOrder
  cases getAddress p.maker with
  | none => exact Or.inl rfl
  | some m =>
    cases getAddress p.srcToken with
    | none => exact Or.inl rfl
    | some s =>
      cases getAddress p.dstToken with
      | none => exact Or.inl rfl
      | some d =>
        dsimp only
        split
        · exact Or.inr ⟨m, s, d, rfl⟩
        · exact Or.inl rfl

/-- The updated order record written by a successful `cancel`. -/
def cancelledOrder (order : SwapOrder) : SwapOrder :=
  { order with status := OrderStatus.cancelled }

theorem execDstLeg_cases (st : ResolverState) (h : Word) (order : SwapOrder)
    (env : ExecEnv) (srcTx : String) :
    (execDstLeg st h order env srcTx).fst = st ∨
    ∃ dstTx, env.dstDeployTx = some dstTx ∧
      (execDstLeg st h order env srcTx).fst = { st with orders := mapSet st.orders h (executedOrder order srcTx dstTx env.srcHTLCAddr env.dstHTLCAddr) } := by
  unfold execDstLeg
  split
  · exact Or.inl rfl
  split
  · exact Or.inl rfl
  split
  · exact Or.inl rfl
  split
  · exact Or.inl rfl
  cases hdst : env.dstDeployTx with
  | none => exact Or.inl rfl
  | some dstTx => exact Or.inr ⟨dstTx, rfl, rfl⟩

theorem execSrcLeg_cases (st : ResolverState) (h : Word) (order : SwapOrder)
    (env : ExecEnv) :
    (execSrcLeg st h order env).fst = st ∨
    ∃ srcTx dstTx, env.srcDeployTx = some srcTx ∧ env.dstDeployTx = some dstTx ∧
      (execSrcLeg st h order env).fst = { st with orders := mapSet st.orders h (executedOrder order srcTx dstTx env.srcHTLCAddr env.dstHTLCAddr) } := by
  unfold execSrcLeg
  split
  · exact Or.inl rfl
  split
  · exact Or.inl rfl
  split
  · exact Or.inl rfl
  split
  · exact Or.inl rfl
  cases hsrc : env.srcDeployTx with
  | none => exact Or.inl rfl
  | some srcTx =>
    rcases execDstLeg_cases st h order env srcTx with heq | ⟨dstTx, hdst, heq⟩
    · exact Or.inl heq
    · exact Or.inr ⟨srcTx, dstTx, rfl, hdst, heq⟩

theorem executeSwap_cases (st : ResolverState) (h : Word) (env : ExecEnv) :
    (executeSwap st h env).fst = st ∨
    ∃ order srcTx dstTx,
      mapFind st.orders h = some order ∧
      order.status = OrderStatus.pending ∧
      (executeSwap st h env).fst = { st with orders := mapSet st.orders h (executedOrder order srcTx dstTx env.srcHTLCAddr env.dstHTLCAddr) } := by
  unfold executeSwap
  cases hf : mapFind st.orders h with
  | none => exact Or.inl rfl
  | some order =>
    dsimp only
    split
    · exact Or.inl rfl
    rename_i hstat
    rcases execSrcLeg_cases st h order env with heq | ⟨srcTx, dstTx, _, _, heq⟩
    · exact Or.inl heq
    · exact Or.inr ⟨order, srcTx, dstTx, rfl, not_not.mp hstat, heq⟩

theorem cancel_cases (st : ResolverState) (h : Word) (cid : Nat) (now : Nat)
    (tx : Option String) :
    (cancel st h cid now tx).fst = st ∨
    ∃ order, mapFind st.orders h = some order ∧ order.timelock ≤ now ∧
      (cancel st h cid now tx).fst = { st with orders := mapSet st.orders h (cancelledOrder order) } := by
  unfold cancel
  cases hf : mapFind st.orders h with
  | none => exact Or.inl rfl
  | some order =>
    dsimp only
    split
    · exact Or.inl rfl
    rename_i htl
    split
    · exact Or.inl rfl
    split
    · exact Or.inl rfl
    cases tx with
    | none => exact Or.inl rfl
    | some txh =>
      exact Or.inr ⟨order, rfl, Nat.le_of_not_lt htl, rfl⟩

/-! ## The `completed` status is unreachable -/

theorem NoCompleted.set {st : ResolverState} (hnc : NoCompleted st) (k : Word)
    (o : SwapOrder) (ho : o.status ≠ OrderStatus.completed) :
    NoCompleted { st with orders := mapSet st.orders k o } := by
  intro k2 o2 hf
  simp only [mapFind_mapSet] at hf
  by_cases hk : k = k2
  · rw [if_pos hk] at hf
    injection hf with hf
    exact hf ▸ ho
  · rw [if_neg hk] at hf
    exact hnc k2 o2 hf

theorem noCompleted_step {st st2 : ResolverState} (hstep : ResolverStep st st2)
    (hnc : NoCompleted st) : NoCompleted st2 := by
  cases hstep with
  | create now sb p =>
    rcases create_cases st now sb p with heq | ⟨m, s, d, heq⟩
    · rw [heq]; exact hnc
    · rw [heq]
      exact NoCompleted.set hnc _ _ (by simp [builtOrder])
  | execute h env =>
    rcases executeSwap_cases st h env with heq | ⟨order, srcTx, dstTx, _, _, heq⟩
    · rw [heq]; exact hnc
    · rw [heq]
      exact NoCompleted.set hnc _ _ (by simp [executedOrder])
  | withdrawStep h s cid tx =>
    rw [withdraw_fst]; exact hnc
  | cancelStep h cid now tx =>
    rcases cancel_cases st h cid now tx with heq | ⟨order, _, _, heq⟩
    · rw [heq]; exact hnc
    · rw [heq]
      exact NoCompleted.set hnc _ _ (by simp [cancelledOrder])

theorem reachable_noCompleted {st : ResolverState} (h : Reachable st) :
    NoCompleted st := by
  obtain ⟨chains, hr⟩ := h
  induction hr with
  | refl =>
    intro k o hf
    simp [initialState, mapFind] at hf
  | tail _ hstep ih => exact noCompleted_step hstep ih

/-! ## Status monotonicity -/

theorem statusTransOK_terminal {a b : Option OrderStatus}
    (h : statusTransOK a b)
    (ht : a = some OrderStatus.completed ∨ a = some OrderStatus.cancelled) :
    b = a := by
  rcases h with h | ⟨h1, h2⟩ | ⟨h1, h2⟩
  · exact h
  · rcases ht with ht | ht <;> rw [ht] at h1 <;> simp at h1
  · rcases ht with ht | ht <;> rcases h1 with h1 | h1 <;> rw [ht] at h1 <;> simp at h1

/-! ## Concrete instances used by scenario theorems and witnesses -/

/-- The two configured chains (Sepolia and Polygon Amoy). -/
def cexChains : List Nat := [11155111, 80002]

def cexMaker : String := "0xaaaaaaaaaaaaaaaaaaaaaaaaaaaaaaaaaaaaaaaa"

/-- The ROSE token address of the resolver configuration, lower-cased. -/
def cexSrcToken : String := "0xb4e06750949b30b7a69dea2ffd537c438af44708"

/-- The TULIP token address of the resolver configuration, lower-cased. -/
def cexDstToken : String := "0x71f4091f883a265f164907e7a70fb44be20a0cf3"

def cexParams : CreateParams :=
  { maker := cexMaker
    srcChainId := 11155111
    dstChainId := 80002
    srcToken := cexSrcToken
    dstToken := cexDstToken
    srcAmount := 100
    dstAmount := 98
    timelock := 8200 }

def cexSecret1 : String :=
  "1111111111111111111111111111111111111111111111111111111111111111"

def cexSecret2 : String :=
  "2222222222222222222222222222222222222222222222222222222222222222"

/-- Resolver state after one successful order creation from a fresh
instance. -/
def wstate : ResolverState :=
  (createSwapOrder (initialState cexChains) 1000 cexSecret1 cexParams).fst

theorem wstate_reachable : Reachable wstate :=
  ⟨cexChains, Relation.ReflTransGen.single
    (ResolverStep.create (initialState cexChains) 1000 cexSecret1 cexParams)⟩

/-! ## C2: status monotonicity -/

/-- C2: Order status is monotonic across every operation of the resolver.
For any reachable resolver state: `executeSwap` only performs
`pending → executed` (or leaves every status unchanged), `withdraw` never
changes the registry at all, `cancel` only performs
`pending|executed → cancelled` (or leaves statuses unchanged), and in
particular no order whose status is `completed` or `cancelled` ever has its
status changed by `executeSwap`, `withdraw` or `cancel`. -/
theorem resolver_status_monotonic (st : ResolverState) (hst : Reachable st) :
    (∀ h env k, statusTransOK (statusAt st k) (statusAt (executeSwap st h env).fst k))
    ∧ (∀ h s cid tx, (withdraw st h s cid tx).fst = st)
    ∧ (∀ h cid now tx k, statusTransOK (statusAt st k) (statusAt (cancel st h cid now tx).fst k))
    ∧ (∀ k, (statusAt st k = some OrderStatus.completed ∨ statusAt st k = some OrderStatus.cancelled) →
        (∀ h env, statusAt (executeSwap st h env).fst k = statusAt st k)
        ∧ (∀ h s cid tx, statusAt (withdraw st h s cid tx).fst k = statusAt st k)
        ∧ (∀ h cid now tx, statusAt (cancel st h cid now tx).fst k = statusAt st k)) := by
  have hnc : NoCompleted st := reachable_noCompleted hst
  have c1 : ∀ h env k, statusTransOK (statusAt st k) (statusAt (executeSwap st h env).fst k) := by
    intro h env k
    rcases executeSwap_cases st h env with heq | ⟨order, srcTx, dstTx, hf, hp, heq⟩
    · rw [heq]; exact Or.inl rfl
    · rw [heq]
      unfold statusAt
      dsimp only
      rw [mapFind_mapSet]
      by_cases hk : h = k
      · rw [if_pos hk, ← hk, hf]
        exact Or.inr (Or.inl ⟨by simp [hp], rfl⟩)
      · rw [if_neg hk]
        exact Or.inl rfl
  have c3 : ∀ h cid now tx k, statusTransOK (statusAt st k) (statusAt (cancel st h cid now tx).fst k) := by
    intro h cid now tx k
    rcases cancel_cases st h cid now tx with heq | ⟨order, hf, _, heq⟩
    · rw [heq]; exact Or.inl rfl
    · rw [heq]
      unfold statusAt
      dsimp only
      rw [mapFind_mapSet]
      by_cases hk : h = k
      · rw [if_pos hk, ← hk, hf]
        have hno : order.status ≠ OrderStatus.completed := hnc h order hf
        cases hord : order.status with
        | pending => exact Or.inr (Or.inr ⟨Or.inl (by simp [hord]), rfl⟩)
        | executed => exact Or.inr (Or.inr ⟨Or.inr (by simp [hord]), rfl⟩)
        | cancelled => exact Or.inl (by simp [cancelledOrder, hord])
        | completed => exact absurd hord hno
      · rw [if_neg hk]
        exact Or.inl rfl
  refine ⟨c1, fun h s cid tx => withdraw_fst st h s cid tx, c3, ?_⟩
  intro k ht
  refine ⟨fun h env => statusTransOK_terminal (c1 h env k) ht,
    fun h s cid tx => by rw [withdraw_fst],
    fun h cid now tx => statusTransOK_terminal (c3 h cid now tx k) ht⟩

/-- Witness for C2 at a concrete reachable state (one created order):
a withdraw call leaves the registry untouched. -/
theorem resolver_status_monotonic_witness :
    (withdraw wstate (Word.bytes "0xfeed") "0xbad" 11155111 none).fst = wstate :=
  (resolver_status_monotonic wstate wstate_reachable).2.1
    (Word.bytes "0xfeed") "0xbad" 11155111 none

/-! ## C1: creation is not idempotent under a fresh secret -/

theorem string_append_left_cancel {a b c : String} (h : a ++ b = a ++ c) :
    b = c := by
  have hd := congrArg String.data h
  simp only [String.data_append] at hd
  exact String.ext (List.append_cancel_left hd)

theorem builtOrder_hash_ne {now1 now2 : Nat} {sb sb2 : String}
    {p : CreateParams} {m s d : String} (hne : sb ≠ sb2) :
    (builtOrder now2 sb2 p m s d).orderHash ≠ (builtOrder now1 sb p m s d).orderHash := by
  intro heq
  simp only [builtOrder, keccak256, Word.keccak.injEq, Word.encodeOrder.injEq,
    Word.bytes.injEq] at heq
  exact hne (string_append_left_cancel heq.2.2.2.2.2.2.2.1.symm)

/-- C1 (amended): calling `createSwapOrder` twice with byte-identical
parameters yields the same `orderHash` and leaves the registry size
unchanged only when both calls happen to generate the same random secret;
when the two generated secrets differ, the two orders get different
`orderHash` values and the second call adds a second registry entry. -/
theorem create_idempotent_only_for_equal_secrets (st : ResolverState)
    (now1 now2 : Nat) (sb sb2 : String) (p : CreateParams) :
    (∀ o1 st1 o2 st2,
      createSwapOrder st now1 sb p = (st1, Except.ok o1) →
      createSwapOrder st1 now2 sb p = (st2, Except.ok o2) →
      o2.orderHash = o1.orderHash ∧ st2.orders.length = st1.orders.length)
    ∧ (∀ o1 st1 o2 st2, sb ≠ sb2 →
      createSwapOrder st now1 sb p = (st1, Except.ok o1) →
      createSwapOrder st1 now2 sb2 p = (st2, Except.ok o2) →
      mapFind st.orders o2.orderHash = none →
      o2.orderHash ≠ o1.orderHash ∧ st2.orders.length = st1.orders.length + 1) := by
  constructor
  · intro o1 st1 o2 st2 h1 h2
    obtain ⟨m, s, d, hm, hs, hd, _, ho1, hst1⟩ := createSwapOrder_ok h1
    obtain ⟨m2, s2, d2, hm2, hs2, hd2, _, ho2, hst2⟩ := createSwapOrder_ok h2
    obtain rfl : m = m2 := by rw [hm] at hm2; injection hm2
    obtain rfl : s = s2 := by rw [hs] at hs2; injection hs2
    obtain rfl : d = d2 := by rw [hd] at hd2; injection hd2
    subst ho1; subst ho2
    have hhash : (builtOrder now2 sb p m s d).orderHash
        = (builtOrder now1 sb p m s d).orderHash := rfl
    refine ⟨hhash, ?_⟩
    rw [hst2, hst1]
    simp only
    rw [length_mapSet, hhash, mapFind_mapSet, if_pos rfl]
    simp
  · intro o1 st1 o2 st2 hne h1 h2 hfresh
    obtain ⟨m, s, d, hm, hs, hd, _, ho1, hst1⟩ := createSwapOrder_ok h1
    obtain ⟨m2, s2, d2, hm2, hs2, hd2, _, ho2, hst2⟩ := createSwapOrder_ok h2
    obtain rfl : m = m2 := by rw [hm] at hm2; injection hm2
    obtain rfl : s = s2 := by rw [hs] at hs2; injection hs2
    obtain rfl : d = d2 := by rw [hd] at hd2; injection hd2
    subst ho1; subst ho2
    have hhash := @builtOrder_hash_ne now1 now2 sb sb2 p m s d hne
    refine ⟨hhash, ?_⟩
    have hkey : (builtOrder now1 sb p m s d).orderHash
        ≠ (builtOrder now2 sb2 p m s d).orderHash :=
      fun hcontra => hhash hcontra.symm
    rw [hst2, hst1]
    simp only
    rw [length_mapSet, mapFind_mapSet, if_neg hkey, hfresh]
    simp

/-- A fallback order record, used only to extract the payload of an
already-successful creation result. -/
def dummyOrder : SwapOrder :=
  { orderHash := Word.bytes ""
    maker := ""
    srcChainId := 0
    dstChainId := 0
    srcToken := ""
    dstToken := ""
    srcAmount := 0
    dstAmount := 0
    timelock := 0
    secret := ""
    hashLock := Word.bytes ""
    status := OrderStatus.pending
    createdAt := 0 }

/-- Payload of a successful creation result. -/
def okOrderD : Except ResolverErr SwapOrder → SwapOrder
  | Except.ok o => o
  | Except.error _ => dummyOrder

/-- Hash of the order returned by a creation result, when it succeeded. -/
def okOrderHash : Except ResolverErr SwapOrder → Option Word
  | Except.ok o => some o.orderHash
  | Except.error _ => none

def c1run1 : ResolverState × Except ResolverErr SwapOrder :=
  createSwapOrder (initialState cexChains) 1000 cexSecret1 cexParams

def c1run2 : ResolverState × Except ResolverErr SwapOrder :=
  createSwapOrder c1run1.fst 1000 cexSecret2 cexParams

/-- C1 counterexample: two creations with byte-identical parameters (the
resolver drew the secrets `cexSecret1` and `cexSecret2` from its RNG) both
succeed, produce different `orderHash` values, and the registry ends with
two entries, not one. -/
theorem create_not_idempotent_cex :
    c1run1.snd.isOk = true ∧ c1run2.snd.isOk = true ∧
    okOrderHash c1run2.snd ≠ okOrderHash c1run1.snd ∧
    c1run2.fst.orders.length = 2 := by decide

/-- Witness for C1 (amended), same-secret branch, at the concrete
parameters: repeating the creation with the same secret keeps the single
registry entry and reproduces the hash. -/
theorem create_idempotent_only_for_equal_secrets_witness :
    okOrderHash (createSwapOrder c1run1.fst 2000 cexSecret1 cexParams).snd
      = okOrderHash c1run1.snd ∧
    (createSwapOrder c1run1.fst 2000 cexSecret1 cexParams).fst.orders.length
      = c1run1.fst.orders.length := by
  have h := (create_idempotent_only_for_equal_secrets (initialState cexChains)
    1000 2000 cexSecret1 cexSecret2 cexParams).1
    (okOrderD c1run1.snd) c1run1.fst
    (okOrderD (createSwapOrder c1run1.fst 2000 cexSecret1 cexParams).snd)
    (createSwapOrder c1run1.fst 2000 cexSecret1 cexParams).fst
    (by rfl) (by rfl)
  refine ⟨?_, h.2⟩
  have h1 : okOrderHash c1run1.snd = some (okOrderD c1run1.snd).orderHash := by rfl
  have h2 : okOrderHash (createSwapOrder c1run1.fst 2000 cexSecret1 cexParams).snd
      = some (okOrderD (createSwapOrder c1run1.fst 2000 cexSecret1 cexParams).snd).orderHash := by rfl
  rw [h1, h2, h.1]

/-! ## C4: the hash lock commits to the generated secret -/

/-- C4: for every order returned by `createSwapOrder`, hashing the order's
secret with keccak-256 yields exactly the order's hash lock. -/
theorem created_order_hashLock (st : ResolverState) (now : Nat) (sb : String)
    (p : CreateParams) (st2 : ResolverState) (o : SwapOrder)
    (h : createSwapOrder st now sb p = (st2, Except.ok o)) :
    keccak256 (Word.bytes o.secret) = o.hashLock := by
  obtain ⟨m, s, d, _, _, _, _, ho, _⟩ := createSwapOrder_ok h
  subst ho
  rfl

/-- Witness for C4 at a concrete successful creation. -/
theorem created_order_hashLock_witness :
    keccak256 (Word.bytes (okOrderD c1run1.snd).secret)
      = (okOrderD c1run1.snd).hashLock :=
  created_order_hashLock (initialState cexChains) 1000 cexSecret1 cexParams
    c1run1.fst (okOrderD c1run1.snd) (by rfl)

/-! ## C6: partial two-leg deployment failure -/

/-- C6 (amended): when the source-leg deployment of `executeSwap` succeeds
but the destination-leg deployment then fails, the call throws and the order
record is left entirely unchanged: its status is still `pending` and its
`srcHTLCAddress` is still unset — the source HTLC address is only ever
recorded after both legs succeed. -/
theorem executeSwap_partial_failure (st : ResolverState) (h : Word)
    (env : ExecEnv) (order : SwapOrder) (srcTx : String)
    (hf : mapFind st.orders h = some order)
    (hp : order.status = OrderStatus.pending)
    (hprov : order.srcChainId ∈ st.providerChains)
    (hfac : env.srcFactoryConfigured = true)
    (hkey : env.makerKeyPresent = true)
    (happ : env.srcApproveOk = true)
    (hsrc : env.srcDeployTx = some srcTx)
    (hdprov : order.dstChainId ∈ st.providerChains)
    (hdfac : env.dstFactoryConfigured = true)
    (hdkey : env.takerKeyPresent = true)
    (hdapp : env.dstApproveOk = true)
    (hdst : env.dstDeployTx = none) :
    executeSwap st h env = (st, Except.error ResolverErr.chainError)
    ∧ mapFind (executeSwap st h env).fst.orders h = some order := by
  have hrun : executeSwap st h env = (st, Except.error ResolverErr.chainError) := by
    simp [executeSwap, execSrcLeg, execDstLeg, hf, hp, hprov, hfac, hkey, happ,
      hsrc, hdprov, hdfac, hdkey, hdapp, hdst]
  exact ⟨hrun, by rw [hrun]; exact hf⟩

/-- Environment for a run whose source leg fully succeeds and whose
destination deployment transaction fails. -/
def c6env : ExecEnv :=
  { srcFactoryConfigured := true
    makerKeyPresent := true
    srcApproveOk := true
    srcDeployTx := some "0xsrcdeploytx"
    srcHTLCAddr := "0x3333333333333333333333333333333333333333"
    dstFactoryConfigured := true
    takerKeyPresent := true
    dstApproveOk := true
    dstDeployTx := none
    dstHTLCAddr := "0x4444444444444444444444444444444444444444" }

/-- Hash of the order created in the concrete scenario. -/
def cexHash : Word := (okOrderD c1run1.snd).orderHash

/-- The error carried by a failed result, if any. -/
def errOf {α : Type} : Except ResolverErr α → Option ResolverErr
  | Except.error e => some e
  | Except.ok _ => none

def c6run : ResolverState × Except ResolverErr ExecResult :=
  executeSwap wstate cexHash c6env

/-- C6 counterexample: in a concrete run where the source deployment
succeeded (`c6env.srcDeployTx` is a confirmed receipt) and the destination
deployment failed, the stored order record has `srcHTLCAddress = none` —
it is NOT populated, contradicting the claim; only the status being
`pending` holds. -/
theorem executeSwap_partial_failure_cex :
    errOf c6run.snd = some ResolverErr.chainError ∧
    (mapFind c6run.fst.orders cexHash).map SwapOrder.status
      = some OrderStatus.pending ∧
    (mapFind c6run.fst.orders cexHash).map SwapOrder.srcHTLCAddress
      = some none := by decide

/-- Witness for C6 (amended) at the concrete partial-failure run. -/
theorem executeSwap_partial_failure_witness :
    executeSwap wstate cexHash c6env
      = (wstate, Except.error ResolverErr.chainError) :=
  (executeSwap_partial_failure wstate cexHash c6env (okOrderD c1run1.snd)
    "0xsrcdeploytx" (by rfl) (by rfl) (by decide) rfl rfl rfl rfl
    (by decide) rfl rfl rfl rfl).1

/-! ## C7: wrong secrets are always rejected -/

/-- C7: for every stored order, every chain id and every transaction
outcome, a `withdraw` whose secret hashes to anything other than the
order's hash lock fails with the invalid-secret error, whatever the order's
status; and for an order produced by `createSwapOrder`, any secret other
than the order's own secret is such a secret. -/
theorem withdraw_rejects_wrong_secret :
    (∀ st h order s cid tx, mapFind st.orders h = some order →
      keccak256 (Word.bytes s) ≠ order.hashLock →
      withdraw st h s cid tx = (st, Except.error ResolverErr.invalidSecret))
    ∧ (∀ st now sb p st1 o st2 h s cid tx,
      createSwapOrder st now sb p = (st1, Except.ok o) →
      mapFind st2.orders h = some o →
      s ≠ o.secret →
      withdraw st2 h s cid tx = (st2, Except.error ResolverErr.invalidSecret)) := by
  have main : ∀ st h order s cid tx, mapFind st.orders h = some order →
      keccak256 (Word.bytes s) ≠ order.hashLock →
      withdraw st h s cid tx = (st, Except.error ResolverErr.invalidSecret) := by
    intro st h order s cid tx hf hsec
    unfold withdraw
    rw [hf]
    dsimp only
    rw [if_pos hsec]
  refine ⟨main, ?_⟩
  intro st now sb p st1 o st2 h s cid tx hcreate hf hneq
  obtain ⟨m, ms, md, _, _, _, _, ho, _⟩ := createSwapOrder_ok hcreate
  apply main st2 h o s cid tx hf
  subst ho
  intro hcontra
  simp only [builtOrder, keccak256, Word.keccak.injEq, Word.bytes.injEq] at hcontra
  exact hneq (by simp [builtOrder, hcontra])

/-- Witness for C7 at the concrete created order: a secret whose keccak-256
digest differs from the stored hash lock is rejected even though the order
is `pending` and the chain id is valid. -/
theorem withdraw_rejects_wrong_secret_witness :
    withdraw wstate cexHash "0xwrong" 11155111 (some "0xtx")
      = (wstate, Except.error ResolverErr.invalidSecret) :=
  withdraw_rejects_wrong_secret.1 wstate cexHash (okOrderD c1run1.snd)
    "0xwrong" 11155111 (some "0xtx") (by rfl) (by decide)

/-! ## C9: creation-time validation -/

/-- C9 (amended): `createSwapOrder` fails, without touching the registry,
whenever any of the three address parameters fails the address validation
of `ethers.getAddress`, and whenever any amount parameter is outside the
`uint256` range the ABI coder enforces (in particular whenever it is
negative); but an amount of exactly zero passes validation: the call
succeeds and stores the order. -/
theorem create_validation_behaviour (st : ResolverState) (now : Nat)
    (sb : String) (p : CreateParams) :
    ((getAddress p.maker = none ∨ getAddress p.srcToken = none ∨
        getAddress p.dstToken = none) →
      createSwapOrder st now sb p = (st, Except.error ResolverErr.createFailed))
    ∧ ((fitsUint256 p.srcAmount = false ∨ fitsUint256 p.dstAmount = false) →
      createSwapOrder st now sb p = (st, Except.error ResolverErr.createFailed))
    ∧ (∀ m s d, getAddress p.maker = some m → getAddress p.srcToken = some s →
      getAddress p.dstToken = some d → p.srcAmount = 0 →
      fitsUint256 p.dstAmount = true →
      (createSwapOrder st now sb p).snd.isOk = true ∧
      mapFind (createSwapOrder st now sb p).fst.orders
        (okOrderD (createSwapOrder st now sb p).snd).orderHash
        = some (okOrderD (createSwapOrder st now sb p).snd)) := by
  refine ⟨?_, ?_, ?_⟩
  · intro hbad
    unfold createSwapOrder
    rcases hbad with hb | hb | hb
    · rw [hb]
    · cases getAddress p.maker with
      | none => rfl
      | some m => rw [hb]
    · cases getAddress p.maker with
      | none => rfl
      | some m =>
        cases getAddress p.srcToken with
        | none => rfl
        | some s => rw [hb]
  · intro hbad
    unfold createSwapOrder
    cases getAddress p.maker with
    | none => rfl
    | some m =>
      cases getAddress p.srcToken with
      | none => rfl
      | some s =>
        cases getAddress p.dstToken with
        | none => rfl
        | some d =>
          dsimp only
          rcases hbad with hb | hb <;> rw [hb] <;> simp
  · intro m s d hm hs hd h0 hfit
    have hrun : createSwapOrder st now sb p
        = ({ st with orders := mapSet st.orders (builtOrder now sb p m s d).orderHash (builtOrder now sb p m s d) }, Except.ok (builtOrder now sb p m s d)) := by
      unfold createSwapOrder
      rw [hm, hs, hd]
      dsimp only
      rw [if_pos (by rw [h0, hfit]; rfl)]
      rfl
    rw [hrun]
    refine ⟨rfl, ?_⟩
    simp only [okOrderD]
    rw [mapFind_mapSet, if_pos rfl]

/-- Parameters identical to `cexParams` except for a zero source amount. -/
def c9params : CreateParams := { cexParams with srcAmount := 0 }

def c9run : ResolverState × Except ResolverErr SwapOrder :=
  createSwapOrder (initialState cexChains) 1000 cexSecret1 c9params

/-- C9 counterexample: with valid addresses and `srcAmount = 0` (a
non-positive amount), creation succeeds and an order is added to the
registry, contradicting the claimed `ValidationError`. -/
theorem create_accepts_zero_amount_cex :
    c9run.snd.isOk = true ∧ c9run.fst.orders.length = 1 := by decide

/-- Witness for C9 (amended): address-validation failure branch at a
concrete malformed maker address, and the zero-amount success branch at the
concrete parameters. -/
theorem create_validation_behaviour_witness :
    createSwapOrder (initialState cexChains) 1000 cexSecret1
        { cexParams with maker := "garden" }
      = (initialState cexChains, Except.error ResolverErr.createFailed)
    ∧ c9run.snd.isOk = true := by
  constructor
  · exact (create_validation_behaviour (initialState cexChains) 1000 cexSecret1
      { cexParams with maker := "garden" }).1 (Or.inl (by decide))
  · exact ((create_validation_behaviour (initialState cexChains) 1000 cexSecret1
      c9params).2.2 cexMaker cexSrcToken cexDstToken (by decide) (by decide)
      (by decide) rfl (by decide)).1

/-! ## C8: factory timelock window -/

/-- C8 (amended): for a not-yet-deployed `orderHash`, each factory
deployment succeeds exactly when `now + MIN_TIMELOCK ≤ timelock ≤
now + MAX_TIMELOCK` (a closed interval: the boundpoints are accepted), the
amount is positive and the funding transfer succeeds — each check evaluated
against that chain's own clock `now`. -/
theorem factory_timelock_window :
    (∀ st now h amt t tok addr, mapFind st.sourceHTLCs h = none →
      ((deploySourceHTLC st now h amt t tok addr).snd.isOk = true ↔
        (now + MIN_TIMELOCK ≤ t ∧ t ≤ now + MAX_TIMELOCK ∧ 0 < amt ∧ tok = true)))
    ∧ (∀ st now h amt t tok addr, mapFind st.destinationHTLCs h = none →
      ((deployDestinationHTLC st now h amt t tok addr).snd.isOk = true ↔
        (now + MIN_TIMELOCK ≤ t ∧ t ≤ now + MAX_TIMELOCK ∧ 0 < amt ∧ tok = true))) := by
  constructor
  · intro st now h amt t tok addr hfresh
    unfold deploySourceHTLC
    rw [hfresh]
    by_cases h1 : now + MIN_TIMELOCK ≤ t
    · by_cases h2 : t ≤ now + MAX_TIMELOCK
      · by_cases h3 : 0 < amt
        · cases tok with
          | true => simp [h1, h2, h3, Except.isOk, Except.toBool]
          | false => simp [h1, h2, h3, Except.isOk, Except.toBool]
        · simp [h1, h2, h3, Except.isOk, Except.toBool]
      · simp [h1, h2, Except.isOk, Except.toBool]
    · simp [h1, Except.isOk, Except.toBool]
  · intro st now h amt t tok addr hfresh
    unfold deployDestinationHTLC
    rw [hfresh]
    by_cases h1 : now + MIN_TIMELOCK ≤ t
    · by_cases h2 : t ≤ now + MAX_TIMELOCK
      · by_cases h3 : 0 < amt
        · cases tok with
          | true => simp [h1, h2, h3, Except.isOk, Except.toBool]
          | false => simp [h1, h2, h3, Except.isOk, Except.toBool]
        · simp [h1, h2, h3, Except.isOk, Except.toBool]
      · simp [h1, h2, Except.isOk, Except.toBool]
    · simp [h1, Except.isOk, Except.toBool]

/-- A factory with no deployed escrows. -/
def freshFactory : FactoryState := { sourceHTLCs := [], destinationHTLCs := [] }

/-- C8 counterexample: at `block.timestamp = 1000` a source deployment with
`timelock = 1000 + MIN_TIMELOCK` (not strictly greater than the lower
bound) and a destination deployment with `timelock = 1000 + MAX_TIMELOCK`
(not strictly less than the upper bound) are both accepted — the contract
uses `>=` and `<=`, not the claimed strict open interval. -/
theorem factory_accepts_boundary_timelocks_cex :
    (deploySourceHTLC freshFactory 1000 (Word.bytes "o8") 5
      (1000 + MIN_TIMELOCK) true "0xa").snd.isOk = true
    ∧ ¬ (1000 + MIN_TIMELOCK < 1000 + MIN_TIMELOCK)
    ∧ (deployDestinationHTLC freshFactory 1000 (Word.bytes "o8") 5
      (1000 + MAX_TIMELOCK) true "0xb").snd.isOk = true
    ∧ ¬ (1000 + MAX_TIMELOCK < 1000 + MAX_TIMELOCK) := by decide

/-- Witness for C8 (amended) at the lower boundary. -/
theorem factory_timelock_window_witness :
    (deploySourceHTLC freshFactory 1000 (Word.bytes "o8") 5
      (1000 + MIN_TIMELOCK) true "0xa").snd.isOk = true :=
  (factory_timelock_window.1 freshFactory 1000 (Word.bytes "o8") 5
    (1000 + MIN_TIMELOCK) true "0xa" rfl).mpr (by decide)

/-! ## C5: the escrow state machine is single-shot -/

/-- C5: for both `HTLCSource` and `HTLCDestination`, `withdraw(preimage)`
succeeds exactly when the escrow is `PENDING`, `now < timelock` and the
preimage hashes to the hash lock; `cancel()` succeeds exactly when the
escrow is `PENDING` and `now ≥ timelock`; every successful operation moves
the state out of `PENDING`; and once the state is not `PENDING`, both
operations fail and no sequence of further calls ever changes the storage
again. -/
theorem escrow_single_shot :
    (∀ (e : Escrow) caller now pre,
      ((e.withdraw caller now pre).snd.isOk = true ↔
        (e.state = EscrowState.PENDING ∧ now < e.timelock ∧
          keccak256 (Word.bytes pre) = e.hashLock)))
    ∧ (∀ (e : Escrow) caller now pre e2 res,
      e.withdraw caller now pre = (e2, Except.ok res) →
      e2.state = EscrowState.WITHDRAWN)
    ∧ (∀ (e : Escrow) now,
      ((e.cancel now).snd.isOk = true ↔
        (e.state = EscrowState.PENDING ∧ e.timelock ≤ now)))
    ∧ (∀ (e : Escrow) now e2 res,
      e.cancel now = (e2, Except.ok res) → e2.state = EscrowState.CANCELLED)
    ∧ (∀ (e : Escrow), e.state ≠ EscrowState.PENDING →
      (∀ caller now pre, (e.withdraw caller now pre).snd.isOk = false)
      ∧ (∀ now, (e.cancel now).snd.isOk = false)
      ∧ (∀ calls, escrowRun e calls = e)) := by
  have stepfix : ∀ (e : Escrow), e.state ≠ EscrowState.PENDING →
      ∀ call, escrowStep e call = e := by
    intro e hne call
    cases call with
    | w caller now pre =>
      unfold escrowStep Escrow.withdraw
      dsimp only
      split
      all_goals rfl
    | c caller now =>
      unfold escrowStep Escrow.cancel
      dsimp only
      split
      all_goals rfl
  have runfix : ∀ (calls : List EscrowCall) (e : Escrow),
      e.state ≠ EscrowState.PENDING → escrowRun e calls = e := by
    intro calls
    induction calls with
    | nil => intro e hne; rfl
    | cons c rest ih =>
      intro e hne
      unfold escrowRun
      rw [stepfix e hne c]
      exact ih e hne
  refine ⟨?_, ?_, ?_, ?_, ?_⟩
  · intro e caller now pre
    unfold Escrow.withdraw
    by_cases h1 : now < e.timelock
    · by_cases h2 : e.state = EscrowState.PENDING
      · by_cases h3 : keccak256 (Word.bytes pre) = e.hashLock
        · simp [h1, h2, h3, Except.isOk, Except.toBool]
        · simp [h1, h2, h3, Except.isOk, Except.toBool]
      · simp [h1, h2, Except.isOk, Except.toBool]
    · simp [h1, Except.isOk, Except.toBool]
  · intro e caller now pre e2 res h
    unfold Escrow.withdraw at h
    split at h
    · rw [Prod.mk.injEq] at h
      exact absurd h.2 (by simp)
    split at h
    · rw [Prod.mk.injEq] at h
      exact absurd h.2 (by simp)
    split at h
    · rw [Prod.mk.injEq] at h
      exact absurd h.2 (by simp)
    · rw [Prod.mk.injEq] at h
      rw [← h.1]
  · intro e now
    unfold Escrow.cancel
    by_cases h1 : e.timelock ≤ now
    · by_cases h2 : e.state = EscrowState.PENDING
      · simp [h1, h2, Except.isOk, Except.toBool]
      · simp [h1, h2, Except.isOk, Except.toBool]
    · simp [h1, Except.isOk, Except.toBool]
  · intro e now e2 res h
    unfold Escrow.cancel at h
    split at h
    · rw [Prod.mk.injEq] at h
      exact absurd h.2 (by simp)
    split at h
    · rw [Prod.mk.injEq] at h
      exact absurd h.2 (by simp)
    · rw [Prod.mk.injEq] at h
      rw [← h.1]
  · intro e hne
    refine ⟨?_, ?_, fun calls => runfix calls e hne⟩
    · intro caller now pre
      unfold Escrow.withdraw
      split
      all_goals rfl
    · intro now
      unfold Escrow.cancel
      split
      all_goals rfl

/-- A pending source-leg escrow with a known hash lock. -/
def cexEscrow : Escrow :=
  { leg := Leg.source
    orderHash := Word.bytes "order5"
    depositor := cexMaker
    makerAsset := cexSrcToken
    makingAmount := 100
    takerAsset := cexDstToken
    takingAmount := 98
    hashLock := keccak256 (Word.bytes "0xsecret5")
    timelock := 5000
    counterChainId := 80002
    state := EscrowState.PENDING
    withdrawnBy := "0x0000000000000000000000000000000000000000"
    preimage := "0x0" }

/-- The same escrow instance after a withdrawal. -/
def cexEscrowDone : Escrow := { cexEscrow with state := EscrowState.WITHDRAWN }

/-- Witness for C5: the pending escrow accepts a correct timely withdrawal,
and the withdrawn escrow is inert under any further call sequence. -/
theorem escrow_single_shot_witness :
    (cexEscrow.withdraw "0xcaller" 1000 "0xsecret5").snd.isOk = true
    ∧ escrowRun cexEscrowDone
        [EscrowCall.w "0xcaller" 1000 "0xsecret5", EscrowCall.c "0xcaller" 9000]
        = cexEscrowDone := by
  constructor
  · exact (escrow_single_shot.1 cexEscrow "0xcaller" 1000 "0xsecret5").mpr
      (by decide)
  · exact (escrow_single_shot.2.2.2.2 cexEscrowDone (by decide)).2.2
      [EscrowCall.w "0xcaller" 1000 "0xsecret5", EscrowCall.c "0xcaller" 9000]

/-! ## C3: both-leg withdrawal never reaches `completed` -/

/-- Environment for a fully successful `executeSwap` run. -/
def c3env : ExecEnv :=
  { srcFactoryConfigured := true
    makerKeyPresent := true
    srcApproveOk := true
    srcDeployTx := some "0xsrcdeploytx"
    srcHTLCAddr := "0x3333333333333333333333333333333333333333"
    dstFactoryConfigured := true
    takerKeyPresent := true
    dstApproveOk := true
    dstDeployTx := some "0xdstdeploytx"
    dstHTLCAddr := "0x4444444444444444444444444444444444444444" }

/-- State after creating the order and executing both legs. -/
def c3st2 : ResolverState := (executeSwap wstate cexHash c3env).fst

/-- The created order's secret (`'0x' + hex(randomBytes(32))`). -/
def c3secret : String := "0x" ++ cexSecret1

def c3w1 : ResolverState × Except ResolverErr CallResult :=
  withdraw c3st2 cexHash c3secret 11155111 (some "0xw1")

def c3w2 : ResolverState × Except ResolverErr CallResult :=
  withdraw c3w1.fst cexHash c3secret 80002 (some "0xw2")

/-- C3 (code bug): in the concrete run in which the order is executed on
both chains and `withdraw` then succeeds with the correct secret first on
the source chain and then on the destination chain, the stored order's
status is still `executed` — `HTLCResolver.withdraw` contains no registry
update, so no order ever transitions to `completed`. -/
theorem withdraw_both_legs_not_completed :
    c3w1.snd.isOk = true ∧ c3w2.snd.isOk = true ∧
    (mapFind c3w2.fst.orders cexHash).map SwapOrder.status
      = some OrderStatus.executed := by decide

/-! ## C10: escrow selection is a single equality test -/

/-- C10: `withdraw` and `cancel` pick the escrow to act on solely by the
test `chainId = order.srcChainId`: any other chain id — including one equal
to neither of the order's chains — is routed to the destination leg, with
no chain-membership validation; the call then fails only when the
destination leg's address is unset, and otherwise dispatches against the
destination escrow address. -/
theorem escrow_selection_by_srcChainId :
    (∀ st h order s cid tx a txh, mapFind st.orders h = some order →
      keccak256 (Word.bytes s) = order.hashLock →
      cid ∈ st.providerChains →
      cid ≠ order.srcChainId →
      (order.dstHTLCAddress = none →
        withdraw st h s cid tx = (st, Except.error (ResolverErr.noHTLCAddress cid)))
      ∧ (order.dstHTLCAddress = some a → tx = some txh →
        withdraw st h s cid tx = (st, Except.ok { htlcAddress := a, txHash := txh })))
    ∧ (∀ st h order cid now tx a txh, mapFind st.orders h = some order →
      order.timelock ≤ now →
      cid ∈ st.providerChains →
      cid ≠ order.srcChainId →
      (order.dstHTLCAddress = none →
        cancel st h cid now tx = (st, Except.error (ResolverErr.noHTLCAddress cid)))
      ∧ (order.dstHTLCAddress = some a → tx = some txh →
        cancel st h cid now tx = ({ st with orders := mapSet st.orders h (cancelledOrder order) }, Except.ok { htlcAddress := a, txHash := txh }))) := by
  constructor
  · intro st h order s cid tx a txh hf hsec hprov hcid
    constructor
    · intro hdst
      simp [withdraw, hf, hsec, hprov, hcid, hdst]
    · intro hdsta htx
      simp [withdraw, hf, hsec, hprov, hcid, hdsta, htx]
  · intro st h order cid now tx a txh hf htl hprov hcid
    constructor
    · intro hdst
      simp [cancel, hf, Nat.not_lt.mpr htl, hprov, hcid, hdst]
    · intro hdsta htx
      simp [cancel, hf, Nat.not_lt.mpr htl, hprov, hcid, hdsta, htx,
        cancelledOrder]

/-- An executed order whose two legs live on chains 11155111 and 80002. -/
def c10order : SwapOrder :=
  { dummyOrder with
    orderHash := Word.bytes "o10"
    srcChainId := 11155111
    dstChainId := 80002
    secret := "0xsec10"
    hashLock := keccak256 (Word.bytes "0xsec10")
    status := OrderStatus.executed
    srcHTLCAddress := some "0x5555555555555555555555555555555555555555"
    dstHTLCAddress := some "0x6666666666666666666666666666666666666666" }

/-- A resolver state holding that order, with a provider configured for
chain 5 — a chain that belongs to neither leg of the order. -/
def c10state : ResolverState :=
  { orders := [(Word.bytes "o10", c10order)], providerChains := [5] }

/-- Witness for C10: a withdrawal on chain 5 — neither the order's source
nor its destination chain — is silently routed to the destination escrow
address and succeeds. -/
theorem escrow_selection_by_srcChainId_witness :
    withdraw c10state (Word.bytes "o10") "0xsec10" 5 (some "0xtxw")
      = (c10state, Except.ok
          { htlcAddress := "0x6666666666666666666666666666666666666666"
            txHash := "0xtxw" }) :=
  (escrow_selection_by_srcChainId.1 c10state (Word.bytes "o10") c10order
    "0xsec10" 5 (some "0xtxw") "0x6666666666666666666666666666666666666666"
    "0xtxw" (by decide) (by decide) (by decide) (by decide)).2
    (by decide) (by decide)

end SwapGarden
